import Mathlib

/-!
Shallow embedding of the node-conf configuration engine (src/conf.js):
the schema model (`Field`), the value coercion engine (`validateValue`,
`getBytes`, `getMilliseconds`), and the runtime scope engine
(`pushRT`/`popRT`/`endScope`/`applyResult`/`propDispatch`/`endBuiltin`,
driven by `runConf`).

Modelling conventions:
- JavaScript numbers are idealised as exact rationals (`Rat`) plus an
  explicit `NaN`; IEEE-754 rounding is outside the model.  All values in
  the claims are exactly representable.
- JavaScript objects are insertion-ordered association lists
  (`List (String × JSVal)`); assignment replaces in place or appends.
- Exceptions are `Except`: `RTError.runtime` for `RuntimeError` throws and
  `RTError.native` for native `Error`/`TypeError` throws (the source wraps
  the latter into `RuntimeError` preserving the message; only the message
  text matters here).
- User callbacks (`onenter`/`onexit` hooks) are modelled as observations:
  the runtime appends a `HookEv` carrying the argument the source passes
  to the callback at the moment of invocation.  The callbacks' own
  arbitrary effects are outside the model.
-/

namespace Conf

/-- A JavaScript number: an exact rational or NaN.  (Every IEEE double is a
dyadic rational, so `Rat` covers all actually occurring values.) -/
inductive JSNum where
  | nan : JSNum
  | val : Rat → JSNum
deriving DecidableEq, Repr

/-- A JavaScript value as used by conf.js: primitives, arrays, plain objects
(insertion-ordered association lists), RegExp objects (by their source
pattern), `undefined`, `null`, and the library's private `NIL` sentinel
object (leaked by the `expression` branch of `validateValue` when the field
has no param). -/
inductive JSVal where
  | num : JSNum → JSVal
  | str : String → JSVal
  | bool : Bool → JSVal
  | arr : List JSVal → JSVal
  | obj : List (String × JSVal) → JSVal
  | re : String → JSVal
  | undef : JSVal
  | null : JSVal
  | nil : JSVal
deriving Repr

/-- A JavaScript object: key-value pairs in insertion order. -/
abbrev JSObj := List (String × JSVal)

/-- Errors: `runtime` models `RuntimeError` throws, `native` models native
`Error`/`TypeError` throws (wrapped by the source preserving the message). -/
inductive RTError where
  | runtime : String → RTError
  | native : String → RTError
deriving Repr

/-- Property read from a JS object: the first (and only) binding of the key. -/
def objGet (o : JSObj) (k : String) : Option JSVal :=
  match o with
  | [] => none
  | (k', v) :: rest => if k' = k then some v else objGet rest k

/-- `k in o` for a JS object. -/
def objHas (o : JSObj) (k : String) : Bool :=
  (objGet o k).isSome

/-- Property write on a JS object: replace in place, else append (JS
insertion-order semantics). -/
def objSet (o : JSObj) (k : String) (v : JSVal) : JSObj :=
  match o with
  | [] => [(k, v)]
  | (k', v') :: rest => if k' = k then (k, v) :: rest else (k', v') :: objSet rest k v

/-- Association-list lookup used for schema tables (`scope.fields`,
`scope.defaults`, ...), which are JS objects keyed by field name. -/
def assocGet {α : Type} (l : List (String × α)) (k : String) : Option α :=
  match l with
  | [] => none
  | (k', v) :: rest => if k' = k then some v else assocGet rest k

/-- JS whitespace recognised by `parseInt`/`parseFloat` (common subset). -/
def isWsCh (c : Char) : Bool :=
  c = ' ' || c = '\t' || c = '\n' || c = '\r'

/-- Decimal digit. -/
def isDigitCh (c : Char) : Bool :=
  c.isDigit

/-- Hexadecimal digit. -/
def isHexCh (c : Char) : Bool :=
  c.isDigit || ('a' ≤ c && c ≤ 'f') || ('A' ≤ c && c ≤ 'F')

/-- Value of a decimal digit string. -/
def digitsToNat (cs : List Char) : Nat :=
  cs.foldl (fun n c => 10 * n + (c.toNat - '0'.toNat)) 0

/-- Value of one hexadecimal digit. -/
def hexDigitVal (c : Char) : Nat :=
  if c.isDigit then c.toNat - '0'.toNat
  else if 'a' ≤ c && c ≤ 'f' then c.toNat - 'a'.toNat + 10
  else c.toNat - 'A'.toNat + 10

/-- Value of a hexadecimal digit string. -/
def hexToNat (cs : List Char) : Nat :=
  cs.foldl (fun n c => 16 * n + hexDigitVal c) 0

/-- Decimal tail of `parseInt`: longest digit run; no digits means NaN. -/
def parseIntDec (sgn : Int) (cs : List Char) : JSNum :=
  let ds := cs.takeWhile isDigitCh
  if ds.isEmpty then .nan else .val (sgn * (digitsToNat ds : Int) : Int)

/-- Sign of the number literal: `-` negates, anything else is positive. -/
def signOf (cs : List Char) : Int :=
  match cs with
  | c :: _ => if c = '-' then -1 else 1
  | [] => 1

/-- Strip a leading sign character. -/
def stripSign (cs : List Char) : List Char :=
  match cs with
  | c :: r => if c = '-' || c = '+' then r else cs
  | [] => cs

/-- Detect a `0x`/`0X` hexadecimal marker, returning what follows it. -/
def hexSplit (cs : List Char) : Option (List Char) :=
  match cs with
  | c0 :: c1 :: rest => if c0 = '0' && (c1 = 'x' || c1 = 'X') then some rest else none
  | _ => none

/-- The radix dispatch of `parseInt` after sign stripping: a `0x`/`0X`
marker switches to hexadecimal (no hex digits means NaN), else decimal. -/
def parseIntSigned (sgn : Int) (cs2 : List Char) : JSNum :=
  match hexSplit cs2 with
  | some rest =>
    let ds := rest.takeWhile isHexCh
    if ds.isEmpty then .nan else .val (sgn * (hexToNat ds : Int) : Int)
  | none => parseIntDec sgn cs2

/-- `parseInt` after whitespace skipping: read the sign, then dispatch. -/
def parseIntAfterWs (cs1 : List Char) : JSNum :=
  parseIntSigned (signOf cs1) (stripSign cs1)

/-- ECMAScript `parseInt(s)` (radix auto-detect): skip whitespace, optional
sign, `0x`/`0X` switches to hexadecimal, else longest decimal digit run;
no digits means NaN.  (Exact-rational idealisation of the double result.) -/
def parseIntCore (cs0 : List Char) : JSNum :=
  parseIntAfterWs (cs0.dropWhile isWsCh)

/-- `parseInt` on a string. -/
def jsParseInt (s : String) : JSNum :=
  parseIntCore s.data

/-- ECMAScript `parseFloat(s)` restricted to the forms reaching it in
conf.js (`[\d.]+` regex captures, so no exponents): skip whitespace,
optional sign, integer digits, optional fraction; at least one digit
overall, else NaN. -/
def parseFloatCore (cs0 : List Char) : JSNum :=
  let cs1 := cs0.dropWhile isWsCh
  let sgn : Rat := match cs1 with | '-' :: _ => -1 | _ => 1
  let cs2 := match cs1 with | '-' :: r => r | '+' :: r => r | _ => cs1
  let ip := cs2.takeWhile isDigitCh
  let rest := cs2.dropWhile isDigitCh
  let fp := match rest with
    | '.' :: r => r.takeWhile isDigitCh
    | _ => []
  if ip.isEmpty && fp.isEmpty then .nan
  else .val (sgn * ((digitsToNat ip : Rat) + (digitsToNat fp : Rat) / ((10 : Rat) ^ fp.length)))

/-- `parseFloat` on a string. -/
def jsParseFloat (s : String) : JSNum :=
  parseFloatCore s.data

/-- Multiply a JS number by a rational constant (NaN propagates). -/
def jnMul (n : JSNum) (k : Rat) : JSNum :=
  match n with
  | .nan => .nan
  | .val q => .val (q * k)

/-- Finite-decimal rendering of a rational whose denominator divides a power
of ten (every parse result and every dyadic double does); other
denominators cannot arise from modelled JS numbers and get a fallback. -/
def ratToDecimalString (q : Rat) : String :=
  let sgn := if q < 0 then "-" else ""
  let n := q.num.natAbs
  let d := q.den
  match (List.range 1200).find? (fun k => (n * 10 ^ k) % d = 0) with
  | none => sgn ++ toString n ++ "/" ++ toString d
  | some k =>
    let m := n * 10 ^ k / d
    if k = 0 then sgn ++ toString m
    else
      let s := toString m
      let s := if s.length ≤ k then String.mk (List.replicate (k + 1 - s.length) '0') ++ s else s
      let ip := s.dropRight k
      let fp := (s.takeRight k).dropRightWhile (· = '0')
      if fp.isEmpty then sgn ++ ip else sgn ++ ip ++ "." ++ fp

/-- `Number.prototype.toString` for the modelled numbers. -/
def jsNumToString (n : JSNum) : String :=
  match n with
  | .nan => "NaN"
  | .val q => ratToDecimalString q

mutual

/-- JS `ToString` of a value (primitives, `Array.prototype.join(",")`,
`"[object Object]"` for plain objects). -/
def jsToString : JSVal → String
  | .num n => jsNumToString n
  | .str s => s
  | .bool b => if b then "true" else "false"
  | .arr xs => String.intercalate "," (jsToStringList xs)
  | .obj _ => "[object Object]"
  | .re s => "/" ++ s ++ "/"
  | .undef => "undefined"
  | .null => "null"
  | .nil => "[object Object]"

/-- Element strings for `Array.prototype.join`: `null`/`undefined` become
the empty string. -/
def jsToStringList : List JSVal → List String
  | [] => []
  | v :: vs =>
    (match v with
     | .null => ""
     | .undef => ""
     | v' => jsToString v') :: jsToStringList vs

end

/-- `value.toString()` as a method call: throws a native TypeError on
`null`/`undefined`, otherwise JS `ToString`. -/
def jsToStringMethod : JSVal → Except RTError String
  | .null => .error (.native "Cannot read property 'toString' of null")
  | .undef => .error (.native "Cannot read property 'toString' of undefined")
  | v => .ok (jsToString v)

/-- `parseInt(value)` on an arbitrary value: JS coerces the argument with
`ToString` first. -/
def parseIntAny (v : JSVal) : JSNum :=
  jsParseInt (jsToString v)

/-- `parseInt(n)` on a number (string round-trip, i.e. truncation toward
zero for finite decimals). -/
def parseIntOfNum (n : JSNum) : JSNum :=
  jsParseInt (jsNumToString n)

/-- Field kinds (`PROPERTY_TYPES` in the source; `sect` renders the source's
"section", a Lean keyword). -/
inductive FType where
  | boolean | string | number | array | object | regexp | sect
  | expression | path | static | struct | wildcard | custom
  | bytesize | timeunit
deriving DecidableEq, Repr

/-- Scalar attributes of a compiled field (see `getPropertyField` in the
source).  `value = none` models the `NIL` "no default" sentinel.  Hooks are
modelled by presence flags (`onenter`/`onexit`); the `expression` regex
param is an abstract test `exprTest` (none = no param) and the `custom`
validator an abstract function `customFn`.  `hasParent` models the
`field.parent`/`scope.parent` back-reference, used only as a boolean by
`endScope`. -/
structure FieldAttrs where
  name : String := ""
  ftype : FType := .wildcard
  property : Option String := none
  list : Bool := false
  required : Bool := false
  strict : Bool := false
  value : Option JSVal := none
  idxignore : Bool := false
  overridable : Bool := false
  index : Option String := none
  ns : Option String := none
  onenter : Bool := false
  onexit : Bool := false
  hasParent : Bool := true
  exprTest : Option (String → Bool) := none
  customFn : JSVal → Except RTError JSVal := fun v => Except.ok v

/-- A compiled field.  Section/struct fields (and the root `ConfigContext`)
carry child fields and statics, attached by `updateSection`; for leaf
fields both lists are empty. -/
inductive Field where
  | mk : FieldAttrs → List (String × Field) → List (String × JSVal) → Field

/-- The scalar attributes. -/
def Field.attrs : Field → FieldAttrs
  | .mk a _ _ => a

/-- `field.fields`: the child fields of a section/struct/root scope. -/
def Field.children : Field → List (String × Field)
  | .mk _ c _ => c

/-- `scope.statics`. -/
def Field.statics : Field → List (String × JSVal)
  | .mk _ _ s => s

def Field.name (f : Field) : String := f.attrs.name

def Field.ftype (f : Field) : FType := f.attrs.ftype

def Field.list (f : Field) : Bool := f.attrs.list

def Field.required (f : Field) : Bool := f.attrs.required

/-- `scope.defaults`: `updateSection` copies `field.value` (when not `NIL`)
into the owning scope's defaults table, in field order. -/
def defaultsOf (s : Field) : List (String × JSVal) :=
  s.children.filterMap (fun p => (p.2.attrs.value).map (fun v => (p.1, v)))

/-- `scope.requirements`: `updateSection` registers every non-static field
with `required = true`, in field order. -/
def requirementsOf (s : Field) : List (String × Field) :=
  s.children.filter (fun p => p.2.required)

/-- The runtime environment `validateValue` reads from `this`: the ambient
strict flag and the working directory (plus `HOME` for `~` paths). -/
structure VEnv where
  strict : Bool
  workdir : String := "/work"
  home : String := "/home/user"

/-- JS truthiness of an optional string (`field.ns ? ... : ...` style
checks: missing and empty string are both falsy). -/
def optTruthy (o : Option String) : Bool :=
  match o with
  | some s => !s.isEmpty
  | none => false

/-- Suffix test on the character lists (kernel-reducible counterpart of
`String.endsWith`). -/
def strEndsWith (s suffix : String) : Bool :=
  suffix.data.reverse.isPrefixOf s.data.reverse

/-- Drop the last `n` characters (kernel-reducible counterpart of
`String.dropRight`). -/
def strDropRight (s : String) (n : Nat) : String :=
  String.mk (s.data.take (s.data.length - n))

/-- Drop the first `n` characters. -/
def strDrop (s : String) (n : Nat) : String :=
  String.mk (s.data.drop n)

/-- Minimal model of `path.join`: concatenation with a single `/`
(normalisation of `..` etc. is not modelled; no claim exercises paths). -/
def joinPath (a b : String) : String :=
  let a' := if strEndsWith a "/" then strDropRight a 1 else a
  let b' := match b.data with
    | '/' :: r => String.mk r
    | _ => b
  a' ++ "/" ++ b'

/-- `resolvePath(path, workdir)` from the source: `/`-prefixed (and anything
else, via the switch's fallthrough default) is returned as-is, `~` joins
`HOME` with the rest, `.` joins the working directory. -/
def resolvePathJS (env : VEnv) (p : String) : String :=
  match p.data with
  | '~' :: _ => joinPath env.home (strDrop p 1)
  | '.' :: _ => joinPath env.workdir p
  | _ => p

/-- Unit suffixes of `BYTESIZE_RE`. -/
inductive BUnit where
  | b | kb | mb | gb
deriving DecidableEq, Repr

/-- Unit suffixes of `TIMEUNIT_RE`. -/
inductive TUnit where
  | ms | s | m | h | d
deriving DecidableEq, Repr

/-- A match of `BYTESIZE_RE`/`TIMEUNIT_RE`: number-with-unit (groups 1, 2)
or bare number (group 3). -/
inductive SizeMatch (u : Type) where
  | withUnit : String → u → SizeMatch u
  | bare : String → SizeMatch u

/-- Nonempty run of `[\d.]` characters (the `[\d\.]+` capture group). -/
def isNumDotStr (s : String) : Bool :=
  !s.isEmpty && s.data.all (fun c => c.isDigit || c = '.')

/-- `BYTESIZE_RE.exec`: `^([\d.]+)(b|kb|mb|gb)$|^([\d.]+)$`.  Units contain
no digits or dots, so the split is determined by the suffix. -/
def bytesizeMatch (s : String) : Option (SizeMatch BUnit) :=
  if strEndsWith s "kb" && isNumDotStr (strDropRight s 2) then some (.withUnit (strDropRight s 2) .kb)
  else if strEndsWith s "mb" && isNumDotStr (strDropRight s 2) then some (.withUnit (strDropRight s 2) .mb)
  else if strEndsWith s "gb" && isNumDotStr (strDropRight s 2) then some (.withUnit (strDropRight s 2) .gb)
  else if strEndsWith s "b" && isNumDotStr (strDropRight s 1) then some (.withUnit (strDropRight s 1) .b)
  else if isNumDotStr s then some (.bare s)
  else none

/-- `TIMEUNIT_RE.exec`: `^([\d.]+)(ms|s|m|h|d)$|^([\d.]+)$`. -/
def timeunitMatch (s : String) : Option (SizeMatch TUnit) :=
  if strEndsWith s "ms" && isNumDotStr (strDropRight s 2) then some (.withUnit (strDropRight s 2) .ms)
  else if strEndsWith s "s" && isNumDotStr (strDropRight s 1) then some (.withUnit (strDropRight s 1) .s)
  else if strEndsWith s "m" && isNumDotStr (strDropRight s 1) then some (.withUnit (strDropRight s 1) .m)
  else if strEndsWith s "h" && isNumDotStr (strDropRight s 1) then some (.withUnit (strDropRight s 1) .h)
  else if strEndsWith s "d" && isNumDotStr (strDropRight s 1) then some (.withUnit (strDropRight s 1) .d)
  else if isNumDotStr s then some (.bare s)
  else none

/-- `getBytes(expr)`: unit suffixes scale by powers of 1024 (`b` uses
`parseInt`, the others `parseFloat`); a bare number is `parseInt`-ed; no
match raises "Invalid bytesize expression". -/
def getBytes (s : String) : Except RTError JSVal :=
  match bytesizeMatch s with
  | none => .error (.runtime "Invalid bytesize expression")
  | some (.withUnit numStr u) =>
    match u with
    | .b => .ok (.num (jsParseInt numStr))
    | .kb => .ok (.num (jnMul (jsParseFloat numStr) 1024))
    | .mb => .ok (.num (jnMul (jsParseFloat numStr) (1024 * 1024)))
    | .gb => .ok (.num (jnMul (jsParseFloat numStr) (1024 * 1024 * 1024)))
  | some (.bare numStr) => .ok (.num (jsParseInt numStr))

/-- `getMilliseconds(expr)`: `ms` uses `parseInt`, `s`/`m`/`h`/`d` scale a
`parseFloat` by 1000/60/60/24; a bare number is `parseInt`-ed; no match
raises "Invalid timeunit expression". -/
def getMilliseconds (s : String) : Except RTError JSVal :=
  match timeunitMatch s with
  | none => .error (.runtime "Invalid timeunit expression")
  | some (.withUnit numStr u) =>
    match u with
    | .ms => .ok (.num (jsParseInt numStr))
    | .s => .ok (.num (jnMul (jsParseFloat numStr) 1000))
    | .m => .ok (.num (jnMul (jsParseFloat numStr) (1000 * 60)))
    | .h => .ok (.num (jnMul (jsParseFloat numStr) (1000 * 60 * 60)))
    | .d => .ok (.num (jnMul (jsParseFloat numStr) (1000 * 60 * 60 * 24)))
  | some (.bare numStr) => .ok (.num (jsParseInt numStr))

/-- `typeof value == "object"` (true for plain objects, arrays, RegExp
objects, the `NIL` sentinel, and `null`). -/
def isObjectLike : JSVal → Bool
  | .obj _ => true
  | .arr _ => true
  | .re _ => true
  | .nil => true
  | .null => true
  | _ => false

/-- `validateValue(field, value)` from the source, branch by branch.  The
effective strictness is `this.strict || field.strict`.  Types without a
switch case (`static`, `section`, `struct`) fall through and return the
value unchanged.  (RegExp pattern-compile failure is not modelled: the
`new RegExp` branch always succeeds.) -/
def validateValue (env : VEnv) (field : Field) (value : JSVal) : Except RTError JSVal :=
  let strict := env.strict || field.attrs.strict
  match field.ftype with
  | .wildcard => .ok value
  | .boolean =>
    match value with
    | .bool _ => .ok value
    | _ => if strict then .error (.runtime "Expected a Boolean") else .ok (.bool true)
  | .string =>
    match value with
    | .str _ => .ok value
    | _ =>
      if strict then .error (.runtime "Expected a String")
      else do
        let s ← jsToStringMethod value
        .ok (.str s)
  | .number =>
    match value with
    | .num _ => .ok value
    | _ =>
      if strict then .error (.runtime "Expected a Number")
      else
        match parseIntAny value with
        | .nan => .error (.runtime "Expected a Number")
        | .val q => .ok (.num (.val q))
  | .array =>
    match value with
    | .arr _ => .ok value
    | _ => if strict then .error (.runtime "Expected an Array") else .ok (.arr [value])
  | .object =>
    if isObjectLike value then .ok value
    else if strict then .error (.runtime "Expected an Object")
    else .ok value
  | .regexp =>
    match value with
    | .re _ => .ok value
    | _ =>
      if strict then .error (.runtime "Expected a RegExp")
      else
        match value with
        | .str s => .ok (.re s)
        | _ => .error (.runtime "Expected a RegExp")
  | .expression =>
    match field.attrs.exprTest with
    | none => .ok .nil
    | some test =>
      match value with
      | .str s => if test s then .ok (.str s) else .error (.runtime ("Bad value '" ++ s ++ "'"))
      | _ =>
        if strict then .error (.runtime "Expected a String")
        else do
          let s ← jsToStringMethod value
          if test s then .ok (.str s) else .error (.runtime ("Bad value '" ++ s ++ "'"))
  | .path =>
    match value with
    | .str s => .ok (.str (resolvePathJS env s))
    | _ =>
      if strict then .error (.runtime "Expected a path")
      else do
        let s ← jsToStringMethod value
        .ok (.str (resolvePathJS env s))
  | .bytesize =>
    match value with
    | .num n => .ok (.num (parseIntOfNum n))
    | .str s => getBytes s
    | _ =>
      if strict then .error (.runtime "Expected String or Number")
      else do
        let s ← jsToStringMethod value
        getBytes s
  | .timeunit =>
    match value with
    | .num n => .ok (.num (parseIntOfNum n))
    | .str s => getMilliseconds s
    | _ =>
      if strict then .error (.runtime "Expected String or Number")
      else do
        let s ← jsToStringMethod value
        getMilliseconds s
  | .custom => field.attrs.customFn value
  | .static => .ok value
  | .sect => .ok value
  | .struct => .ok value

/-- Observable hook invocations: the runtime records each `onenter`/`onexit`
callback call together with the `currentResult` value passed to it at that
moment. -/
inductive HookEv where
  | enter : String → Option JSObj → HookEv
  | exitHook : String → Option JSObj → HookEv
deriving Repr

/-- The runtime state (`Runtime` in the source): the three stacks with
their current slots, the ambient strict flag, working directory, and the
observation trace of hook invocations.  Stack elements are `Option` because
the slots start out `null` and `Array.prototype.pop` on an empty stack
yields `undefined`. -/
structure RT where
  strict : Bool
  workdir : String
  home : String
  scopeStack : List (Option Field)
  currentScope : Option Field
  resultStack : List (Option JSObj)
  currentResult : Option JSObj
  indexStack : List (Option (List JSVal))
  currentIndex : Option (List JSVal)
  trace : List HookEv

/-- The coercion environment `validateValue` reads from the runtime. -/
def RT.venv (rt : RT) : VEnv :=
  { strict := rt.strict, workdir := rt.workdir, home := rt.home }

/-- A fresh runtime (`new Runtime(...)`). -/
def initRT (strict : Bool) : RT :=
  { strict := strict, workdir := "/work", home := "/home/user",
    scopeStack := [], currentScope := none,
    resultStack := [], currentResult := none,
    indexStack := [], currentIndex := none,
    trace := [] }

/-- `stack.pop()` as a read: the head, or `undefined` on an empty stack. -/
def headO {α : Type} : List (Option α) → Option α
  | [] => none
  | x :: _ => x

/-- `Runtime.prototype.push(scope)`: save the current slots, make `scope`
current, start a fresh result `{}` and a fresh index `[]` when the scope
declares one (`scope.index ? [] : null`, a JS truthiness test). -/
def pushRT (rt : RT) (scope : Field) : RT :=
  { rt with
    scopeStack := rt.currentScope :: rt.scopeStack,
    currentScope := some scope,
    indexStack := rt.currentIndex :: rt.indexStack,
    currentIndex := if optTruthy scope.attrs.index then some [] else none,
    resultStack := rt.currentResult :: rt.resultStack,
    currentResult := some [] }

/-- Character-level string split (kernel-reducible counterpart of
`String.splitOn` for a single-character separator). -/
def splitChars (sep : Char) : List Char → List Char → List (List Char)
  | [], acc => [acc.reverse]
  | c :: rest, acc =>
    if c = sep then acc.reverse :: splitChars sep rest []
    else splitChars sep rest (c :: acc)

/-- The dotted namespace path of `getNamespace(target, expr)`:
`expr.split(".")`. -/
def nsPath (ns : String) : List String :=
  (splitChars '.' ns.data []).map String.mk

/-- Walk/create a namespace chain in a result object and modify the object
at its end: `getNamespace` followed by mutation through the alias, made
functional.  Missing links are created as `{}`; an existing non-object
link is replaced (in JS that situation throws on the subsequent `in`;
unreachable in modelled runs, where namespace links are only ever created
here). -/
def nsModify {α : Type} (o : JSObj) (path : List String)
    (f : JSObj → Except RTError (JSObj × α)) : Except RTError (JSObj × α) :=
  match path with
  | [] => f o
  | k :: ks =>
    let sub := match objGet o k with
      | some (.obj m) => m
      | _ => []
    match nsModify sub ks f with
    | .error e => .error e
    | .ok (sub', a) => .ok (objSet o k (.obj sub'), a)

/-- Read-only view of the namespace target `nsModify` presents to its
worker function. -/
def nsDescend (o : JSObj) : List String → JSObj
  | [] => o
  | k :: ks =>
    nsDescend (match objGet o k with
      | some (.obj m) => m
      | _ => []) ks

/-- The namespace path `applyResult` uses: guarded by
`typeof field.ns == "string"`, so an empty string still namespaces. -/
def nsPathTypeof (ns : Option String) : List String :=
  match ns with
  | some s => nsPath s
  | none => []

/-- The namespace path `endScope` uses: guarded by JS truthiness
(`field.ns ? ... : ...`), so an empty string stays flat. -/
def nsPathTruthy (ns : Option String) : List String :=
  match ns with
  | some s => if s.isEmpty then [] else nsPath s
  | none => []

/-- `result[name].push(v)`: the stored value must be an array. -/
def arrPush (sub : JSObj) (name : String) (v : JSVal) : Except RTError JSObj :=
  match objGet sub name with
  | some (.arr xs) => .ok (objSet sub name (.arr (xs ++ [v])))
  | _ => .error (.native "push is not a function")

/-- The per-element loop of `applyResult` for a `list` field: validate each
value (a validation throw aborts), push the validated value, and collect it
for the index.  Returns the updated target object, the values appended to
the index, and the last validated value (`undefined` when the loop never
ran, matching the uninitialised `validated` variable). -/
def listApply (env : VEnv) (field : Field) (sub : JSObj) (idxAdds : List JSVal)
    (last : JSVal) : List JSVal → Except RTError (JSObj × List JSVal × JSVal)
  | [] => .ok (sub, idxAdds, last)
  | v :: vs =>
    match validateValue env field v with
    | .error e => .error e
    | .ok validated =>
      match arrPush sub field.name validated with
      | .error e => .error e
      | .ok sub' => listApply env field sub' (idxAdds ++ [validated]) validated vs

/-- The body of `applyResult` acting on the (possibly namespaced) target
object: list append, the non-overridable duplicate check, or plain set.
Returns the updated target, the values to append to the scope index, and
the value `applyResult` returns. -/
def applyCore (env : VEnv) (field : Field) (value : JSVal) (sub : JSObj) :
    Except RTError (JSObj × List JSVal × JSVal) :=
  if field.list then
    let sub0 := if objHas sub field.name then sub else objSet sub field.name (.arr [])
    match value with
    | .arr vs => listApply env field sub0 [] .undef vs
    | v => listApply env field sub0 [] .undef [v]
  else if field.attrs.overridable = false && objHas sub field.name then
    .error (.runtime "Expected one value only")
  else
    match validateValue env field value with
    | .error e => .error e
    | .ok validated => .ok (objSet sub field.name validated, [validated], validated)

/-- `applyResult(field, value)`: write into the current result (namespaced
when `typeof field.ns == "string"`), appending each installed value to the
current index unless the field has `idxignore` (or no index is active).
Returns the updated runtime and the validated value. -/
def applyResult (rt : RT) (field : Field) (value : JSVal) :
    Except RTError (RT × JSVal) :=
  match rt.currentResult with
  | none => .error (.native "Cannot use 'in' operator on null")
  | some res =>
    match nsModify res (nsPathTypeof field.attrs.ns) (fun sub => applyCore rt.venv field value sub) with
    | .error e => .error e
    | .ok (res', idxAdds, validated) =>
      let newIdx := if field.attrs.idxignore then rt.currentIndex
        else rt.currentIndex.map (fun l => l ++ idxAdds)
      .ok ({ rt with currentResult := some res', currentIndex := newIdx }, validated)

/-- The `forEach` loop applying an array-valued default of a `list` field:
each element is validated (a throw aborts) but the RAW element is pushed
into the result sequence and appended to the scope's index (when one is
active), with no `idxignore` check. -/
def pushRawLoop (env : VEnv) (field : Field) (acc : List JSVal)
    (idx : Option (List JSVal)) : List JSVal → Except RTError (List JSVal × Option (List JSVal))
  | [] => .ok (acc, idx)
  | v :: vs =>
    match validateValue env field v with
    | .error e => .error e
    | .ok _ => pushRawLoop env field (acc ++ [v]) (idx.map (fun l => l ++ [v])) vs

/-- One iteration of the defaults loop of `endScope` for field `key`:
if the key is absent from its (truthy-)namespaced target, install the
default — for `list` fields an array default goes through `pushRawLoop`
and a single default is validated and pushed alone (no index append) —
else an unset non-required `list` field becomes `[]`. -/
def defaultsStep (env : VEnv) (scope : Field) (key : String) (field : Field)
    (res : JSObj) (idx : Option (List JSVal)) :
    Except RTError (JSObj × Option (List JSVal)) :=
  nsModify res (nsPathTruthy field.attrs.ns) (fun target =>
    if objHas target key then .ok (target, idx)
    else
      match assocGet (defaultsOf scope) key with
      | some d =>
        if field.list then
          match d with
          | .arr ds =>
            match pushRawLoop env field [] idx ds with
            | .error e => .error e
            | .ok (elems, idx') => .ok (objSet target key (.arr elems), idx')
          | dv =>
            match validateValue env field dv with
            | .error e => .error e
            | .ok validated => .ok (objSet target key (.arr [validated]), idx)
        else
          match validateValue env field d with
          | .error e => .error e
          | .ok validated => .ok (objSet target key validated, idx)
      | none =>
        if field.list && !field.required then .ok (objSet target key (.arr []), idx)
        else .ok (target, idx))

/-- The defaults loop of `endScope`, iterating `Object.keys(scope.fields)`
in reverse (`while (length--)`). -/
def defaultsPass (env : VEnv) (scope : Field) :
    List (String × Field) → JSObj → Option (List JSVal) →
    Except RTError (JSObj × Option (List JSVal))
  | [], res, idx => .ok (res, idx)
  | (key, field) :: rest, res, idx =>
    match defaultsStep env scope key field res idx with
    | .error e => .error e
    | .ok (res', idx') => defaultsPass env scope rest res' idx'

/-- The requirements loop of `endScope` (reverse key order): a required key
absent from its (truthy-)namespaced target raises the RuntimeError whose
message the source concatenates as
`"Required property '" + key + "'" + "was not set."` — note the missing
space between the quote and `was`. -/
def reqPass : List (String × Field) → JSObj → Except RTError JSObj
  | [], res => .ok res
  | (key, field) :: rest, res =>
    match nsModify res (nsPathTruthy field.attrs.ns) (fun target =>
        if objHas target key then .ok (target, ())
        else .error (.runtime ("Required property '" ++ key ++ "'" ++ "was not set."))) with
    | .error e => .error e
    | .ok (res', _) => reqPass rest res'

/-- The statics loop of `endScope` (reverse key order): unconditional
un-namespaced writes. -/
def staticsPass : List (String × JSVal) → JSObj → JSObj
  | [], res => res
  | (key, v) :: rest, res => staticsPass rest (objSet res key v)

/-- The pure assembly half of `endScope`: apply defaults, check
requirements, inject statics, and attach the accumulated index under
`scope.index` (when truthy; a `null` index is attached as `null`). -/
def assembleScope (env : VEnv) (s : Field) (res0 : JSObj)
    (index : Option (List JSVal)) : Except RTError JSObj :=
  match defaultsPass env s s.children.reverse res0 index with
  | .error e => .error e
  | .ok (res1, idx1) =>
    match reqPass (requirementsOf s).reverse res1 with
    | .error e => .error e
    | .ok res2 =>
      let res3 := staticsPass s.statics.reverse res2
      .ok (if optTruthy s.attrs.index then
            objSet res3 ((s.attrs.index).getD "")
              (match idx1 with | some l => .arr l | none => .null)
          else res3)

/-- The final step of `endScope`: when the scope has a parent, fold the
assembled result into the (already restored) current result via
`applyResult` with the scope itself as the field. -/
def foldIntoParent (rt : RT) (s : Field) (res4 : JSObj) :
    Except RTError (RT × JSObj) :=
  if s.attrs.hasParent then
    match applyResult rt s (.obj res4) with
    | .error e => .error e
    | .ok (rt', _) => .ok (rt', res4)
  else .ok (rt, res4)

/-- `endScope(scope, result, index)`: a `null` scope is the
"bad syntax, unexpected `end`" error; then the result is assembled
(defaults, requirements, statics, index) and folded into the parent.
Returns the updated runtime and the assembled result object.  (A non-null
scope with a `null` result is a native throw in JS; it is unreachable in
modelled runs because `push` always installs a fresh `{}`.) -/
def endScope (rt : RT) (scope : Option Field) (result : Option JSObj)
    (index : Option (List JSVal)) : Except RTError (RT × JSObj) :=
  match scope with
  | none => .error (.runtime "bad syntax, unexpected `end`")
  | some s =>
    match result with
    | none => .error (.native "Cannot use 'in' operator on null")
    | some res0 =>
      match assembleScope rt.venv s res0 index with
      | .error e => .error e
      | .ok res4 => foldIntoParent rt s res4

/-- The slot restoration performed at the start of `Runtime.prototype.pop()`:
all three current slots are reloaded from their stacks. -/
def restoredOf (rt : RT) : RT :=
  { rt with
    currentResult := headO rt.resultStack, resultStack := rt.resultStack.tail,
    currentScope := headO rt.scopeStack, scopeStack := rt.scopeStack.tail,
    currentIndex := headO rt.indexStack, indexStack := rt.indexStack.tail }

/-- `Runtime.prototype.pop()`: restore all three slots from their stacks,
then run `endScope` on the popped scope/result/index. -/
def popRT (rt : RT) : Except RTError (RT × JSObj) :=
  endScope (restoredOf rt) rt.currentScope rt.currentResult rt.currentIndex

/-- The `field.property` positional-value application inside `createProp`:
look the declared child up in the section's fields (a missing child is a
native throw) and `applyResult` the call's value onto it. -/
def applyProperty (rt : RT) (field : Field) (fullname : String) (v : JSVal) :
    Except RTError RT :=
  if optTruthy field.attrs.property then
    match assocGet field.children ((field.attrs.property).getD "") with
    | none => .error (.native ("Property '" ++ fullname ++ "', field not found: "
        ++ (field.attrs.property).getD ""))
    | some prop =>
      match applyResult rt prop v with
      | .error e => .error e
      | .ok (rt', _) => .ok rt'
  else .ok rt

/-- `field.onenter(this, this.currentResult)`, recorded as an observation. -/
def fireOnEnter (rt : RT) (field : Field) : RT :=
  if field.attrs.onenter then
    { rt with trace := rt.trace ++ [.enter field.name rt.currentResult] }
  else rt

/-- The section/struct arm of the dispatch callable built by `createProp`:
push the field's scope, apply the positional `property` value, fire
`onenter`, and for `struct` immediately pop again.  Returns `undefined`
like the source's callable. -/
def sectionEnter (rt : RT) (field : Field) (fullname : String) (v : JSVal) :
    Except RTError (RT × JSVal) :=
  let rt1 := pushRT rt field
  match applyProperty rt1 field fullname v with
  | .error e => .error e
  | .ok rt2 =>
    let rt3 := fireOnEnter rt2 field
    if field.ftype = .struct then
      match popRT rt3 with
      | .error e => .error e
      | .ok (rt4, _) => .ok (rt4, .undef)
    else .ok (rt3, .undef)

/-- The full name used in the dispatch callable's error messages. -/
def fullnameOf (ns : Option String) (name : String) : String :=
  match ns with
  | some n => n ++ "." ++ name
  | none => name

/-- The dispatch callable `createProp(name, ns)` returns: resolve the field
in the current scope (a missing scope or field is a native throw with the
section's name, `"<null>"` when no scope or its name is falsy), then either
enter a section/struct or apply the value to the field. -/
def propDispatch (rt : RT) (name : String) (ns : Option String) (value : JSVal) :
    Except RTError (RT × JSVal) :=
  let fullname := fullnameOf ns name
  match rt.currentScope with
  | none => .error (.native ("Property '" ++ fullname ++ "' cannot be defined "
      ++ "in section '" ++ "<null>" ++ "'"))
  | some scope =>
    match assocGet scope.children name with
    | none => .error (.native ("Property '" ++ fullname ++ "' cannot be defined "
        ++ "in section '" ++ (if scope.name.isEmpty then "<null>" else scope.name) ++ "'"))
    | some field =>
      if field.ftype = .sect || field.ftype = .struct then
        sectionEnter rt field fullname value
      else
        applyResult rt field value

/-- `field.onexit(this, result)` with `result = this.currentResult` at the
moment the builtin `end` runs, recorded as an observation. -/
def fireOnExit (rt : RT) (field : Field) : RT :=
  if field.attrs.onexit then
    { rt with trace := rt.trace ++ [.exitHook field.name rt.currentResult] }
  else rt

/-- The builtin `end` getter from `createSandbox`: read the current scope
(a `null` scope is a native TypeError on `.onexit`), fire `onexit` with the
current (pre-close) result, then pop. -/
def endBuiltin (rt : RT) : Except RTError RT :=
  match rt.currentScope with
  | none => .error (.native "Cannot read property 'onexit' of null")
  | some field =>
    match popRT (fireOnExit rt field) with
    | .error e => .error e
    | .ok (rt2, _) => .ok rt2

/-- A script event as seen by the runtime: a dispatch-callable invocation
or the builtin `end`. -/
inductive Stmt where
  | set : String → Option String → JSVal → Stmt
  | endS : Stmt

/-- Run a list of script events. -/
def runStmts : RT → List Stmt → Except RTError RT
  | rt, [] => .ok rt
  | rt, .set name ns v :: rest =>
    match propDispatch rt name ns v with
    | .error e => .error e
    | .ok (rt', _) => runStmts rt' rest
  | rt, .endS :: rest =>
    match endBuiltin rt with
    | .error e => .error e
    | .ok rt' => runStmts rt' rest

/-- The trailing loop of `runInContext`:
`while ((result = runtime.pop()) && runtime.currentScope);` — pop (closing
any scopes the script left open, without firing `onexit`) until the current
scope is gone.  A successful pop always returns an object (truthy), so the
loop is driven by `currentScope` alone; the fuel covers the stack depth. -/
def drainLoop : Nat → RT → Except RTError (RT × JSObj)
  | 0, _ => .error (.native "out of fuel")
  | fuel + 1, rt =>
    match popRT rt with
    | .error e => .error e
    | .ok (rt', res) =>
      if rt'.currentScope.isSome then drainLoop fuel rt' else .ok (rt', res)

/-- `Script.runInContext`: push the root context, run the script's events,
then drain.  Returns the final result and the final runtime state (whose
trace records the hook invocations). -/
def runConf (ctx : Field) (strict : Bool) (stmts : List Stmt) :
    Except RTError (JSObj × RT) :=
  let rt1 := pushRT (initRT strict) ctx
  match runStmts rt1 stmts with
  | .error e => .error e
  | .ok rt2 =>
    match drainLoop (rt2.scopeStack.length + 1) rt2 with
    | .error e => .error e
    | .ok (rt3, res) => .ok (res, rt3)

/-- The hook-invocation trace of a successful run. -/
def runConfTrace (ctx : Field) (strict : Bool) (stmts : List Stmt) :
    Option (List HookEv) :=
  match runConf ctx strict stmts with
  | .ok (_, rt) => some rt.trace
  | .error _ => none

/-- The final result of a successful run. -/
def runConfResult (ctx : Field) (strict : Bool) (stmts : List Stmt) :
    Option JSObj :=
  match runConf ctx strict stmts with
  | .ok (res, _) => some res
  | .error _ => none

/-- An environment with the given ambient strict flag. -/
def mkEnv (strict : Bool) : VEnv :=
  { strict := strict }

/-- A `number` field with the given per-field strict flag. -/
def numField (s : Bool) : Field :=
  .mk { name := "port", ftype := .number, strict := s } [] []

/-- A plain `string` field. -/
def strField (nm : String) : Field :=
  .mk { name := nm, ftype := .string } [] []

/-- A `bytesize` field. -/
def bytesizeField : Field :=
  .mk { name := "cache", ftype := .bytesize } [] []

/-- A `timeunit` field. -/
def timeunitField : Field :=
  .mk { name := "ttl", ftype := .timeunit } [] []

/-- A required `string` field with no default ("host": "STRING"). -/
def hostReq : Field :=
  .mk { name := "host", ftype := .string, required := true } [] []

/-- A scope owning only the required `host` field (closing it empty must
raise the required-property error). -/
def c1Scope : Field :=
  .mk { name := "server", ftype := .sect, hasParent := false } [("host", hostReq)] []

/-- A `list` `number` field with `idxignore` and the array default
`["42"]`. -/
def c3ListField : Field :=
  .mk { name := "n", ftype := .number, list := true, idxignore := true,
        value := some (.arr [.str "42"]) } [] []

/-- A scope with an index owning only `c3ListField`. -/
def c3Scope : Field :=
  .mk { name := "s", ftype := .sect, hasParent := false, index := some "idx" }
    [("n", c3ListField)] []

/-- A `struct` field (one child, no positional property). -/
def structF : Field :=
  .mk { name := "s", ftype := .struct } [("inner", strField "inner")] []

/-- A root context owning one struct field. -/
def c2Ctx : Field :=
  .mk { name := "[ROOT]", ftype := .sect, hasParent := false } [("s", structF)] []

/-- A `number` child with default `7`. -/
def c4Default : Field :=
  .mk { name := "p", ftype := .number, value := some (.num (.val 7)) } [] []

/-- A section field with an `onexit` hook whose child `p` has a default. -/
def secF : Field :=
  .mk { name := "sec", ftype := .sect, onexit := true } [("p", c4Default)] []

/-- A root context owning the hooked section. -/
def c4Ctx : Field :=
  .mk { name := "[ROOT]", ftype := .sect, hasParent := false } [("sec", secF)] []

/-- An empty section field. -/
def innerF : Field :=
  .mk { name := "inner", ftype := .sect } [] []

/-- A section with an index whose only child is the section `inner`. -/
def outerF : Field :=
  .mk { name := "outer", ftype := .sect, index := some "items" } [("inner", innerF)] []

/-- A root context owning `outer`. -/
def c10Ctx : Field :=
  .mk { name := "[ROOT]", ftype := .sect, hasParent := false } [("outer", outerF)] []

/-- The runtime state after pushing the root context and entering `outer`
(so `currentIndex` is the fresh `[]` of `outer`). -/
def c10rt0 : RT :=
  pushRT (pushRT (initRT false) c10Ctx) outerF

/-- `applyResult` only rewrites `currentResult`/`currentIndex`: stacks, the
current scope, the trace and the ambient configuration survive. -/
theorem applyResult_frame {rt rt' : RT} {f : Field} {v v' : JSVal}
    (h : applyResult rt f v = .ok (rt', v')) :
    rt'.scopeStack = rt.scopeStack ∧ rt'.currentScope = rt.currentScope
    ∧ rt'.resultStack = rt.resultStack ∧ rt'.indexStack = rt.indexStack
    ∧ rt'.trace = rt.trace ∧ rt'.strict = rt.strict
    ∧ rt'.workdir = rt.workdir ∧ rt'.home = rt.home := by
  unfold applyResult at h
  split at h
  · exact absurd h (by simp)
  · split at h
    · exact absurd h (by simp)
    · simp only [Except.ok.injEq, Prod.mk.injEq] at h
      obtain ⟨h1, _⟩ := h
      subst h1
      exact ⟨rfl, rfl, rfl, rfl, rfl, rfl, rfl, rfl⟩

/-- A successful fold preserves stacks/scope/trace/configuration and
returns the assembled result unchanged. -/
theorem foldIntoParent_frame {rt rt' : RT} {s : Field} {res4 r : JSObj}
    (h : foldIntoParent rt s res4 = .ok (rt', r)) :
    (rt'.scopeStack = rt.scopeStack ∧ rt'.currentScope = rt.currentScope
    ∧ rt'.resultStack = rt.resultStack ∧ rt'.indexStack = rt.indexStack
    ∧ rt'.trace = rt.trace ∧ rt'.strict = rt.strict
    ∧ rt'.workdir = rt.workdir ∧ rt'.home = rt.home) ∧ r = res4 := by
  unfold foldIntoParent at h
  split at h
  · split at h
    · exact absurd h (by simp)
    · rename_i happ
      simp only [Except.ok.injEq, Prod.mk.injEq] at h
      obtain ⟨h1, h2⟩ := h
      subst h1
      exact ⟨applyResult_frame happ, h2.symm⟩
  · simp only [Except.ok.injEq, Prod.mk.injEq] at h
    obtain ⟨h1, h2⟩ := h
    subst h1
    exact ⟨⟨rfl, rfl, rfl, rfl, rfl, rfl, rfl, rfl⟩, h2.symm⟩

/-- `endScope` only touches the runtime through its final `applyResult`
fold: stacks, the current scope, the trace and the ambient configuration
survive. -/
theorem endScope_frame {rt rt' : RT} {sc : Option Field} {res : Option JSObj}
    {idx : Option (List JSVal)} {r : JSObj}
    (h : endScope rt sc res idx = .ok (rt', r)) :
    rt'.scopeStack = rt.scopeStack ∧ rt'.currentScope = rt.currentScope
    ∧ rt'.resultStack = rt.resultStack ∧ rt'.indexStack = rt.indexStack
    ∧ rt'.trace = rt.trace ∧ rt'.strict = rt.strict
    ∧ rt'.workdir = rt.workdir ∧ rt'.home = rt.home := by
  unfold endScope at h
  split at h
  · exact absurd h (by simp)
  · split at h
    · exact absurd h (by simp)
    · split at h
      · exact absurd h (by simp)
      · exact (foldIntoParent_frame h).1

/-- A successful `pop` restores the slots from the stacks (and, via
`endScope`, never appends hook events). -/
theorem popRT_frame {rt rt' : RT} {r : JSObj} (h : popRT rt = .ok (rt', r)) :
    rt'.scopeStack = rt.scopeStack.tail ∧ rt'.currentScope = headO rt.scopeStack
    ∧ rt'.resultStack = rt.resultStack.tail ∧ rt'.indexStack = rt.indexStack.tail
    ∧ rt'.trace = rt.trace ∧ rt'.strict = rt.strict
    ∧ rt'.workdir = rt.workdir ∧ rt'.home = rt.home := by
  unfold popRT at h
  obtain ⟨h1, h2, h3, h4, h5, h6, h7, h8⟩ := endScope_frame h
  exact ⟨h1, h2, h3, h4, h5, h6, h7, h8⟩

/-- The positional-property application preserves stacks, current scope,
trace and configuration. -/
theorem applyProperty_frame {rt rt' : RT} {f : Field} {nm : String} {v : JSVal}
    (h : applyProperty rt f nm v = .ok rt') :
    rt'.scopeStack = rt.scopeStack ∧ rt'.currentScope = rt.currentScope
    ∧ rt'.resultStack = rt.resultStack ∧ rt'.indexStack = rt.indexStack
    ∧ rt'.trace = rt.trace ∧ rt'.strict = rt.strict
    ∧ rt'.workdir = rt.workdir ∧ rt'.home = rt.home := by
  unfold applyProperty at h
  split at h
  · split at h
    · exact absurd h (by simp)
    · split at h
      · exact absurd h (by simp)
      · rename_i happ
        simp only [Except.ok.injEq] at h
        subst h
        exact applyResult_frame happ
  · simp only [Except.ok.injEq] at h
    subst h
    exact ⟨rfl, rfl, rfl, rfl, rfl, rfl, rfl, rfl⟩

/-- `fireOnEnter` only appends to the trace. -/
theorem fireOnEnter_frame (rt : RT) (f : Field) :
    (fireOnEnter rt f).scopeStack = rt.scopeStack
    ∧ (fireOnEnter rt f).currentScope = rt.currentScope
    ∧ (fireOnEnter rt f).resultStack = rt.resultStack
    ∧ (fireOnEnter rt f).currentResult = rt.currentResult
    ∧ (fireOnEnter rt f).indexStack = rt.indexStack
    ∧ (fireOnEnter rt f).currentIndex = rt.currentIndex
    ∧ (fireOnEnter rt f).strict = rt.strict
    ∧ (fireOnEnter rt f).workdir = rt.workdir
    ∧ (fireOnEnter rt f).home = rt.home := by
  unfold fireOnEnter
  split <;> exact ⟨rfl, rfl, rfl, rfl, rfl, rfl, rfl, rfl, rfl⟩

/-- A worker failure surfaces unchanged through the namespace walk. -/
theorem nsModify_error {α : Type} (o : JSObj) (p : List String)
    (g : JSObj → Except RTError (JSObj × α)) (e : RTError)
    (h : g (nsDescend o p) = .error e) : nsModify o p g = .error e := by
  induction p generalizing o with
  | nil => exact h
  | cons k ks ih =>
    simp only [nsModify]
    rw [ih _ (by exact h)]

/-- Claim C1: for every scope close, a `required` field absent after
defaults raises a RuntimeError — but the message the code produces is
"Required property '<name>'was not set." (the source concatenates
`"'" + "was not set."` across a line break, losing the space the claim,
the spec, and every other in-repo version of this function have).
Evaluating the embedded `endScope` at the failing input exhibits the exact
message and its difference from the claimed one. -/
theorem c1_required_message :
    endScope (initRT false) (some c1Scope) (some []) none
      = .error (.runtime "Required property 'host'was not set.")
    ∧ "Required property 'host'was not set."
        ≠ "Required property 'host' was not set." :=
  ⟨rfl, by decide⟩

/-- Claim C7: bytesize coercion maps "2mb" to 2097152 and bare "1024" to
1024; timeunit coercion maps "1h" to 3600000 and bare "500" to 500. -/
theorem c7_bytesize_timeunit :
    validateValue (mkEnv false) bytesizeField (.str "2mb") = .ok (.num (.val 2097152))
    ∧ validateValue (mkEnv false) bytesizeField (.str "1024") = .ok (.num (.val 1024))
    ∧ validateValue (mkEnv false) timeunitField (.str "1h") = .ok (.num (.val 3600000))
    ∧ validateValue (mkEnv false) timeunitField (.str "500") = .ok (.num (.val 500)) := by
  refine ⟨?_, rfl, ?_, rfl⟩
  · show Except.ok (JSVal.num (jnMul (jsParseFloat "2") (1024 * 1024)))
      = Except.ok (JSVal.num (JSNum.val 2097152))
    rw [show jsParseFloat "2" = JSNum.val (1 * ((2 : Rat) + 0 / 10 ^ (0 : Nat))) from rfl]
    show Except.ok (JSVal.num (JSNum.val ((1 * ((2 : Rat) + 0 / 10 ^ (0 : Nat))) * (1024 * 1024))))
      = Except.ok (JSVal.num (JSNum.val 2097152))
    norm_num
  · show Except.ok (JSVal.num (jnMul (jsParseFloat "1") (1000 * 60 * 60)))
      = Except.ok (JSVal.num (JSNum.val 3600000))
    rw [show jsParseFloat "1" = JSNum.val (1 * ((1 : Rat) + 0 / 10 ^ (0 : Nat))) from rfl]
    show Except.ok (JSVal.num (JSNum.val ((1 * ((1 : Rat) + 0 / 10 ^ (0 : Nat))) * (1000 * 60 * 60))))
      = Except.ok (JSVal.num (JSNum.val 3600000))
    norm_num

/-- Claim C8, counterexample: the claim says a field with `strict = false`
is coerced non-strictly even under an ambient strict runtime, so "42" on a
number field would coerce to 42; the code computes
`strict = this.strict || field.strict`, so the coercion is strict and
raises "Expected a Number" instead. -/
theorem c8_counterexample :
    validateValue (mkEnv true) (numField false) (.str "42")
      = .error (.runtime "Expected a Number")
    ∧ (Except.error (RTError.runtime "Expected a Number")
        ≠ (Except.ok (.num (.val 42)) : Except RTError JSVal)) :=
  ⟨rfl, fun h => Except.noConfusion h⟩

/-- Claim C9, counterexample: the claim says any string beginning with a
parseable integer prefix followed by non-numeric characters coerces to that
prefix, so "0xff" (prefix "0", trailing "xff") would coerce to 0; JS
`parseInt` auto-detects the `0x` radix marker and the code yields 255. -/
theorem c9_counterexample :
    validateValue (mkEnv false) (numField false) (.str "0xff")
      = .ok (.num (.val 255))
    ∧ ((Except.ok (JSVal.num (.val 255)) : Except RTError JSVal)
        ≠ .ok (.num (.val 0))) :=
  ⟨rfl, by simp⟩

/-- Claim C2, counterexample: the claim says `end` immediately after
entering a struct-backed field is a no-op that raises no error; in the code
the struct already popped itself, so that `end` closes the enclosing scope
(here the root), and the run aborts with "bad syntax, unexpected `end`"
when the trailing implicit close finds no scope — while the same script
without the extra `end` succeeds. -/
theorem c2_counterexample :
    runConf c2Ctx false [.set "s" none (.str "v"), .endS]
      = .error (.runtime "bad syntax, unexpected `end`")
    ∧ (∃ p, runConf c2Ctx false [.set "s" none (.str "v")] = .ok p) :=
  ⟨rfl, ⟨_, rfl⟩⟩

/-- Claim C3, counterexample: closing a scope whose unset `list` field `n`
(a `number` field with `idxignore = true`) has the array default `["42"]`
installs the RAW string element (not the coerced number 42) in the result
sequence, and appends it to the scope's index despite `idxignore`. -/
theorem c3_counterexample :
    endScope (initRT false) (some c3Scope) (some []) (some [])
      = .ok (initRT false,
          [("n", .arr [.str "42"]), ("idx", .arr [.str "42"])])
    ∧ (JSVal.str "42" ≠ JSVal.num (.val 42)) :=
  ⟨rfl, fun h => JSVal.noConfusion h⟩

/-- Claim C4, counterexample: closing the hooked section `sec` with the
builtin `end` fires `onexit` with the raw in-progress result `{}` — not
the assembled result, which contains the default `p = 7` as the final
output shows — and a scope closed by the end-of-script synthesized pop
(same script without `end`) never fires `onexit` at all. -/
theorem c4_counterexample :
    runConfTrace c4Ctx false [.set "sec" none .undef, .endS]
      = some [.exitHook "sec" (some [])]
    ∧ runConfResult c4Ctx false [.set "sec" none .undef, .endS]
      = some [("sec", .obj [("p", .num (.val 7))])]
    ∧ runConfTrace c4Ctx false [.set "sec" none .undef] = some []
    ∧ (some ([] : JSObj) ≠ some [("p", JSVal.num (.val 7))]) :=
  ⟨rfl, rfl, rfl, by simp⟩

/-- Claim C10, counterexample: entering the section `inner` from inside
`outer` (whose index is active and holds `[]`) and closing it with `end`
folds the closed result into the parent — which also appends it to the
parent's index, so `currentIndex` is `[{}]` afterwards, not the `[]` it
held before the scope was entered. -/
theorem c10_counterexample :
    c10rt0.currentIndex = some []
    ∧ (match propDispatch c10rt0 "inner" none .undef with
       | .ok (rt1, _) =>
         match endBuiltin rt1 with
         | .ok rt2 => some rt2.currentIndex
         | .error _ => none
       | .error _ => none) = some (some [JSVal.obj []])
    ∧ (some [JSVal.obj []] ≠ some ([] : List JSVal)) :=
  ⟨rfl, rfl, by simp⟩

/-- The state used by the C5 witness: a runtime whose current result
already holds a value for `host`. -/
def c5rt : RT :=
  { initRT false with currentResult := some [("host", .str "a")] }

/-- Claim C5: a second assignment to a `list = false`, `overridable = false`
field whose name is already present in (the namespace target of) the
current scope's result raises exactly "Expected one value only"; the check
precedes any validation or write, so the stored first value is untouched
(in this embedding the erroring `applyResult` produces no state at all). -/
theorem c5_expected_one_value (rt : RT) (f : Field) (v : JSVal) (res : JSObj)
    (hres : rt.currentResult = some res)
    (hlist : f.list = false)
    (hov : f.attrs.overridable = false)
    (hhas : objHas (nsDescend res (nsPathTypeof f.attrs.ns)) f.name = true) :
    applyResult rt f v = .error (.runtime "Expected one value only") := by
  unfold applyResult
  rw [hres]
  dsimp only
  rw [nsModify_error res (nsPathTypeof f.attrs.ns)
      (fun sub => applyCore rt.venv f v sub)
      (.runtime "Expected one value only")
      (by simp [applyCore, hlist, hov, hhas])]

/-- Claim C5 witness: the concrete second assignment to `host`. -/
theorem c5_witness :
    applyResult c5rt (strField "host") (.str "b")
      = .error (.runtime "Expected one value only") :=
  c5_expected_one_value c5rt (strField "host") (.str "b")
    [("host", .str "a")] rfl rfl rfl rfl

/-- Claim C6: on a number field, non-strict coercion maps "42" to 42 and
raises "Expected a Number" on "abc"; with the effective strict flag set,
every non-number value (including both strings) raises "Expected a
Number". -/
theorem c6_number_modes :
    (∀ a fs : Bool, (a || fs) = false →
      validateValue (mkEnv a) (numField fs) (.str "42") = .ok (.num (.val 42))
      ∧ validateValue (mkEnv a) (numField fs) (.str "abc")
          = .error (.runtime "Expected a Number"))
    ∧ (∀ (a fs : Bool) (v : JSVal), (a || fs) = true → (∀ n, v ≠ .num n) →
      validateValue (mkEnv a) (numField fs) v
        = .error (.runtime "Expected a Number")) := by
  constructor
  · intro a fs h
    cases a <;> cases fs <;> simp at h
    exact ⟨rfl, rfl⟩
  · intro a fs v h hnn
    cases v with
    | num n => exact absurd rfl (hnn n)
    | _ =>
      unfold validateValue
      simp only [numField, mkEnv, Field.ftype, Field.attrs, h]
      simp

/-- Claim C6 witness: the concrete instances of both conjuncts. -/
theorem c6_witness :
    validateValue (mkEnv false) (numField false) (.str "42") = .ok (.num (.val 42))
    ∧ validateValue (mkEnv true) (numField false) (.str "abc")
        = .error (.runtime "Expected a Number") :=
  ⟨(c6_number_modes.1 false false rfl).1,
   c6_number_modes.2 true false (.str "abc") rfl (fun _ h => JSVal.noConfusion h)⟩

/-- Replace a field's own strict flag. -/
def fieldWithStrict (f : Field) (b : Bool) : Field :=
  .mk { f.attrs with strict := b } f.children f.statics

/-- Claim C8, amended: `validateValue` computes
`strict = this.strict || field.strict`, so its behaviour depends on the
two strict flags only through their disjunction: running any coercion in a
non-strict environment with the field's flag set to
`env.strict || field.strict` is identical to the original run.  In
particular a field with `strict = true` is strict under a non-strict
runtime, and a field with `strict = false` cannot opt out of an ambient
strict runtime. -/
theorem c8_amended (env : VEnv) (f : Field) (v : JSVal) :
    validateValue env f v
      = validateValue { env with strict := false }
          (fieldWithStrict f (env.strict || f.attrs.strict)) v := by
  obtain ⟨a, c, st⟩ := f
  unfold validateValue fieldWithStrict
  cases a
  dsimp only [Field.attrs, Field.ftype]
  simp only [Bool.false_or]
  rfl

/-- `Except.isOk`. -/
def isOkE {ε α : Type} : Except ε α → Bool
  | .ok _ => true
  | .error _ => false

/-- When every element validates, the raw-default loop appends exactly the
RAW elements to both the accumulator and the index. -/
theorem pushRawLoop_ok (env : VEnv) (f : Field) (ds : List JSVal) :
    ∀ (acc : List JSVal) (idx : Option (List JSVal)),
    (∀ v ∈ ds, isOkE (validateValue env f v) = true) →
    pushRawLoop env f acc idx ds
      = .ok (acc ++ ds, idx.map (fun l => l ++ ds)) := by
  induction ds with
  | nil =>
    intro acc idx _
    simp only [pushRawLoop, List.append_nil]
    cases idx <;> simp
  | cons v vs ih =>
    intro acc idx hall
    have hv : isOkE (validateValue env f v) = true := hall v (by simp)
    simp only [pushRawLoop]
    cases hval : validateValue env f v with
    | error e => rw [hval] at hv; exact absurd hv (by simp [isOkE])
    | ok w =>
      rw [ih (acc ++ [v]) (idx.map (fun l => l ++ [v]))
          (fun x hx => hall x (by simp [hx]))]
      cases idx <;> simp

/-- Claim C3, amended: at scope close, an unset `list` field (flat, no
namespace) with an array default has each default element individually
passed through the coercion rule, but installs the RAW elements in the
result sequence and appends them to the closing scope's index whenever one
is active — with no `idxignore` check (note the absence of any `idxignore`
hypothesis). -/
theorem c3_amended (env : VEnv) (scope : Field) (key : String) (f : Field)
    (res : JSObj) (idx : Option (List JSVal)) (ds : List JSVal)
    (hns : f.attrs.ns = none)
    (hlist : f.list = true)
    (hdef : assocGet (defaultsOf scope) key = some (.arr ds))
    (hhas : objHas res key = false)
    (hval : ∀ v ∈ ds, isOkE (validateValue env f v) = true) :
    defaultsStep env scope key f res idx
      = .ok (objSet res key (.arr ds), idx.map (fun l => l ++ ds)) := by
  unfold defaultsStep
  rw [hns]
  simp only [nsPathTruthy, nsModify]
  rw [hhas, hdef]
  simp only [Bool.false_eq_true, if_false]
  rw [hlist]
  simp only [if_true]
  rw [pushRawLoop_ok env f ds [] idx hval]
  simp

/-- Claim C3 amended, witness: the concrete `idxignore` list field with
default `["42"]` from the counterexample schema. -/
theorem c3_amended_witness :
    defaultsStep (mkEnv false) c3Scope "n" c3ListField [] (some [])
      = .ok ([("n", .arr [.str "42"])], some [.str "42"]) :=
  c3_amended (mkEnv false) c3Scope "n" c3ListField [] (some []) [.str "42"]
    rfl rfl rfl rfl (by intro v hv; simp at hv; subst hv; rfl)

/-- A decimal digit is not JS whitespace. -/
theorem digitNotWs {c : Char} (h : isDigitCh c = true) : isWsCh c = false := by
  have h1 : c ≠ ' ' := fun e => absurd (e ▸ h) (by decide)
  have h2 : c ≠ '\t' := fun e => absurd (e ▸ h) (by decide)
  have h3 : c ≠ '\n' := fun e => absurd (e ▸ h) (by decide)
  have h4 : c ≠ '\r' := fun e => absurd (e ▸ h) (by decide)
  simp [isWsCh, h1, h2, h3, h4]

/-- A decimal digit is not a minus sign. -/
theorem digitNotDash {c : Char} (h : isDigitCh c = true) : c ≠ '-' :=
  fun e => absurd (e ▸ h) (by decide)

/-- A decimal digit is not a plus sign. -/
theorem digitNotPlus {c : Char} (h : isDigitCh c = true) : c ≠ '+' :=
  fun e => absurd (e ▸ h) (by decide)

/-- A decimal digit is not an `x`/`X` radix marker. -/
theorem digitNotX {c : Char} (h : isDigitCh c = true) : c ≠ 'x' ∧ c ≠ 'X' :=
  ⟨fun e => absurd (e ▸ h) (by decide), fun e => absurd (e ▸ h) (by decide)⟩

theorem signOf_cons {c : Char} (t : List Char) (h : c ≠ '-') :
    signOf (c :: t) = 1 := by
  simp [signOf, h]

theorem stripSign_cons {c : Char} (t : List Char) (h1 : c ≠ '-') (h2 : c ≠ '+') :
    stripSign (c :: t) = c :: t := by
  simp [stripSign, h1, h2]

/-- The digit run before non-digit trailing characters is taken whole. -/
theorem takeWhile_digits_append (d r : List Char)
    (h1 : ∀ c ∈ d, isDigitCh c = true) (h2 : ∀ c ∈ r, isDigitCh c = false) :
    (d ++ r).takeWhile isDigitCh = d := by
  induction d with
  | nil =>
    cases r with
    | nil => rfl
    | cons c t => simp [List.takeWhile_cons, h2 c (by simp)]
  | cons c t ih =>
    simp only [List.cons_append, List.takeWhile_cons, h1 c (by simp), if_true]
    rw [ih (fun x hx => h1 x (by simp [hx]))]

/-- A digit-headed input (with the `0x`-marker case excluded) never enters
the hexadecimal branch. -/
theorem hexSplit_digits (c : Char) (d' r : List Char)
    (h1 : ∀ x ∈ c :: d', isDigitCh x = true)
    (h2 : ∀ x ∈ r, isDigitCh x = false)
    (h3 : c :: d' = ['0'] → ∀ x, r.head? = some x → ¬(x = 'x' ∨ x = 'X')) :
    hexSplit (c :: (d' ++ r)) = none := by
  cases d' with
  | nil =>
    cases r with
    | nil => rfl
    | cons c1 r' =>
      simp only [List.nil_append, hexSplit]
      by_cases hc : c = '0'
      · have := h3 (by rw [hc]) c1 rfl
        have hx : c1 ≠ 'x' := fun e => this (Or.inl e)
        have hX : c1 ≠ 'X' := fun e => this (Or.inr e)
        simp [hx, hX]
      · simp [hc]
  | cons c2 t' =>
    have hc2 : isDigitCh c2 = true := h1 c2 (by simp)
    simp only [List.cons_append, hexSplit]
    simp [(digitNotX hc2).1, (digitNotX hc2).2]

/-- `parseInt` on a nonempty decimal-digit run followed by only non-digit
characters (hex marker excluded) yields the decimal value of the run. -/
theorem parseIntCore_digits (d r : List Char) (hd : d ≠ [])
    (h1 : ∀ c ∈ d, isDigitCh c = true)
    (h2 : ∀ c ∈ r, isDigitCh c = false)
    (h3 : d = ['0'] → ∀ c, r.head? = some c → ¬(c = 'x' ∨ c = 'X')) :
    parseIntCore (d ++ r) = .val (digitsToNat d) := by
  obtain ⟨c, d', rfl⟩ : ∃ c d', d = c :: d' := by
    cases d with
    | nil => exact absurd rfl hd
    | cons c d' => exact ⟨c, d', rfl⟩
  have hc : isDigitCh c = true := h1 c (by simp)
  unfold parseIntCore
  rw [List.cons_append, List.dropWhile_cons_of_neg (by simp [digitNotWs hc])]
  unfold parseIntAfterWs
  rw [signOf_cons _ (digitNotDash hc), stripSign_cons _ (digitNotDash hc) (digitNotPlus hc)]
  unfold parseIntSigned
  rw [hexSplit_digits c d' r h1 h2 h3]
  unfold parseIntDec
  rw [← List.cons_append, takeWhile_digits_append (c :: d') r h1 h2]
  simp

/-- Claim C9, amended: in non-strict mode, number coercion of a string made
of a nonempty decimal digit run followed by only non-digit characters
returns the decimal value of the run — except for the `0x`/`0X`
hexadecimal marker, excluded here and exhibited in the counterexample —
and a string whose `parseInt` is NaN raises "Expected a Number". -/
theorem c9_amended :
    (∀ (d r : List Char), d ≠ [] → (∀ c ∈ d, isDigitCh c = true) →
      (∀ c ∈ r, isDigitCh c = false) →
      (d = ['0'] → ∀ c, r.head? = some c → ¬(c = 'x' ∨ c = 'X')) →
      validateValue (mkEnv false) (numField false) (.str (String.mk (d ++ r)))
        = .ok (.num (.val (digitsToNat d))))
    ∧ (∀ s : String, jsParseInt s = .nan →
      validateValue (mkEnv false) (numField false) (.str s)
        = .error (.runtime "Expected a Number")) := by
  constructor
  · intro d r hd h1 h2 h3
    show (match parseIntAny (JSVal.str (String.mk (d ++ r))) with
      | JSNum.nan => Except.error (RTError.runtime "Expected a Number")
      | JSNum.val q => Except.ok (JSVal.num (JSNum.val q)))
      = Except.ok (JSVal.num (JSNum.val (digitsToNat d)))
    rw [show parseIntAny (JSVal.str (String.mk (d ++ r))) = parseIntCore (d ++ r) from rfl]
    rw [parseIntCore_digits d r hd h1 h2 h3]
  · intro s h
    show (match parseIntAny (JSVal.str s) with
      | JSNum.nan => Except.error (RTError.runtime "Expected a Number")
      | JSNum.val q => Except.ok (JSVal.num (JSNum.val q)))
      = Except.error (RTError.runtime "Expected a Number")
    rw [show parseIntAny (JSVal.str s) = jsParseInt s from rfl, h]

/-- Claim C9 amended, witness: "12abc" coerces to 12. -/
theorem c9_amended_witness :
    validateValue (mkEnv false) (numField false)
        (.str (String.mk (['1', '2'] ++ ['a', 'b', 'c'])))
      = .ok (.num (.val (digitsToNat ['1', '2']))) :=
  c9_amended.1 ['1', '2'] ['a', 'b', 'c'] (by simp) (by decide) (by decide)
    (by intro h; exact absurd h (by decide))

/-- Equality of all runtime components except the trace. -/
def sameCore (a b : RT) : Prop :=
  a.strict = b.strict ∧ a.workdir = b.workdir ∧ a.home = b.home
  ∧ a.scopeStack = b.scopeStack ∧ a.currentScope = b.currentScope
  ∧ a.resultStack = b.resultStack ∧ a.currentResult = b.currentResult
  ∧ a.indexStack = b.indexStack ∧ a.currentIndex = b.currentIndex

/-- A successful `endScope` of a parented scope ends in the `applyResult`
fold of the assembled result. -/
theorem endScope_fold {rt rt' : RT} {s : Field} {res0 : JSObj}
    {idx : Option (List JSVal)} {r : JSObj}
    (hpar : s.attrs.hasParent = true)
    (h : endScope rt (some s) (some res0) idx = .ok (rt', r)) :
    ∃ vr, applyResult rt s (.obj r) = .ok (rt', vr) := by
  unfold endScope at h
  dsimp only at h
  cases has : assembleScope rt.venv s res0 idx with
  | error e => rw [has] at h; exact absurd h (by simp)
  | ok res4 =>
    rw [has] at h
    unfold foldIntoParent at h
    rw [hpar] at h
    simp only [if_true] at h
    cases hap : applyResult rt s (.obj res4) with
    | error e => rw [hap] at h; exact absurd h (by simp)
    | ok p =>
      obtain ⟨rta, vr⟩ := p
      rw [hap] at h
      simp only [Except.ok.injEq, Prod.mk.injEq] at h
      obtain ⟨hh1, hh2⟩ := h
      subst hh1
      subst hh2
      exact ⟨vr, hap⟩

/-- `fireOnExit` is a pure trace extension. -/
theorem fireOnExit_shape (rt : RT) (f : Field) :
    ∃ tr, fireOnExit rt f = { rt with trace := tr } := by
  unfold fireOnExit
  split
  · exact ⟨_, rfl⟩
  · exact ⟨rt.trace, rfl⟩

/-- A successful `endBuiltin` is a `pop` of the runtime with (at most) an
`exitHook` observation appended. -/
theorem endBuiltin_ok_shape {rt rt2 : RT} {f : Field}
    (hsc : rt.currentScope = some f)
    (h : endBuiltin rt = .ok rt2) :
    ∃ (tr : List HookEv) (r : JSObj),
      popRT { rt with trace := tr } = .ok (rt2, r) := by
  unfold endBuiltin at h
  rw [hsc] at h
  dsimp only at h
  obtain ⟨tr, htr⟩ := fireOnExit_shape rt f
  rw [htr] at h
  cases hp : popRT { rt with trace := tr } with
  | error e => rw [hp] at h; exact absurd h (by simp)
  | ok p =>
    obtain ⟨rt2', r⟩ := p
    rw [hp] at h
    simp only [Except.ok.injEq] at h
    subst h
    exact ⟨tr, r, hp⟩

/-- Claim C4, amended: an `end`-triggered close of a scope with an `onexit`
hook fires the hook exactly once, with the raw pre-close `currentResult`
(before defaults/statics/index and before the fold), and then pops; a bare
`pop` — the end-of-script synthesized close — never appends a hook
observation. -/
theorem c4_amended :
    (∀ (rt : RT) (f : Field), rt.currentScope = some f → f.attrs.onexit = true →
      endBuiltin rt
        = (popRT { rt with
            trace := rt.trace ++ [.exitHook f.name rt.currentResult] }).map Prod.fst)
    ∧ (∀ (rt rt' : RT) (r : JSObj), popRT rt = .ok (rt', r) → rt'.trace = rt.trace) := by
  constructor
  · intro rt f hsc hx
    set rtx := { rt with
      trace := rt.trace ++ [HookEv.exitHook f.name rt.currentResult] } with hrtx
    unfold endBuiltin
    rw [hsc]
    dsimp only
    rw [show fireOnExit rt f = rtx from by
      unfold fireOnExit; rw [hx]; simp [hrtx]]
    cases hp : popRT rtx with
    | error e => simp [Except.map]
    | ok p => cases p; simp [Except.map]
  · intro rt rt' r h
    exact (popRT_frame h).2.2.2.2.1

/-- The runtime state inside the hooked section `sec`. -/
def c4rt0 : RT :=
  pushRT (pushRT (initRT false) c4Ctx) secF

/-- Claim C4 amended, witness: closing `sec` with the builtin `end` from
the concrete state. -/
theorem c4_amended_witness :
    endBuiltin c4rt0
      = (popRT { c4rt0 with
          trace := c4rt0.trace ++ [.exitHook secF.name c4rt0.currentResult] }).map
            Prod.fst :=
  c4_amended.1 c4rt0 secF rfl rfl

/-- Claim C2, amended: dispatching a struct-typed field pushes its scope
and immediately pops it again, so afterwards the scope stacks and current
scope are exactly what they were before (a struct scope is never left
open); but the builtin `end` invoked right after is an ordinary pop of the
then-current enclosing scope — not a no-op — and the concrete script
`s(...)` followed by `end` aborts with "bad syntax, unexpected `end`". -/
theorem c2_amended :
    (∀ (rt rt1 : RT) (scope f : Field) (name : String) (ns : Option String)
        (v u : JSVal),
      rt.currentScope = some scope →
      assocGet scope.children name = some f →
      f.ftype = .struct →
      propDispatch rt name ns v = .ok (rt1, u) →
      rt1.currentScope = rt.currentScope ∧ rt1.scopeStack = rt.scopeStack
      ∧ rt1.resultStack = rt.resultStack ∧ rt1.indexStack = rt.indexStack)
    ∧ (∀ (rt : RT) (f : Field), rt.currentScope = some f →
        f.attrs.onexit = false → endBuiltin rt = (popRT rt).map Prod.fst)
    ∧ runConf c2Ctx false [.set "s" none (.str "v"), .endS]
        = .error (.runtime "bad syntax, unexpected `end`") := by
  refine ⟨?_, ?_, rfl⟩
  · intro rt rt1 scope f name ns v u hsc hf hty h
    unfold propDispatch at h
    rw [hsc] at h
    dsimp only at h
    rw [hf] at h
    dsimp only at h
    simp only [hty] at h
    simp at h
    unfold sectionEnter at h
    dsimp only at h
    cases happ : applyProperty (pushRT rt f) f (fullnameOf ns name) v with
    | error e => rw [happ] at h; exact absurd h (by simp)
    | ok rt2' =>
      rw [happ] at h
      dsimp only at h
      simp only [hty] at h
      simp only [if_true, reduceIte] at h
      cases hpop : popRT (fireOnEnter rt2' f) with
      | error e => rw [hpop] at h; exact absurd h (by simp)
      | ok p =>
        obtain ⟨rt4, res⟩ := p
        rw [hpop] at h
        simp only [Except.ok.injEq, Prod.mk.injEq] at h
        obtain ⟨h4, _⟩ := h
        subst h4
        obtain ⟨p1, p2, p3, p4, _, _, _, _⟩ := popRT_frame hpop
        obtain ⟨e1, _, e3, _, e5, _, _, _, _⟩ := fireOnEnter_frame rt2' f
        obtain ⟨q1, _, q3, q4, _, _, _, _⟩ := applyProperty_frame happ
        refine ⟨?_, ?_, ?_, ?_⟩
        · rw [p2, e1, q1]; rfl
        · rw [p1, e1, q1]; rfl
        · rw [p3, e3, q3]; rfl
        · rw [p4, e5, q4]; rfl
  · intro rt f hsc hx
    unfold endBuiltin
    rw [hsc]
    dsimp only
    rw [show fireOnExit rt f = rt from by unfold fireOnExit; rw [hx]; simp]
    cases hp : popRT rt with
    | error e => simp [Except.map]
    | ok p => cases p; simp [Except.map]

/-- The runtime state with the struct-owning root context open. -/
def c2rt0 : RT :=
  pushRT (initRT false) c2Ctx

/-- The runtime state after the struct field `s` has dispatched (pushed and
auto-popped, folding `{}` into the root result). -/
def c2rt1 : RT :=
  { c2rt0 with currentResult := some [("s", JSVal.obj [])] }

/-- Claim C2 amended, witness: the concrete struct dispatch restores scope
and stacks. -/
theorem c2_amended_witness :
    c2rt1.currentScope = c2rt0.currentScope
    ∧ c2rt1.scopeStack = c2rt0.scopeStack
    ∧ c2rt1.resultStack = c2rt0.resultStack
    ∧ c2rt1.indexStack = c2rt0.indexStack :=
  c2_amended.1 c2rt0 c2rt1 c2Ctx structF "s" none (.str "v") .undef
    rfl rfl rfl rfl

/-- Claim C10, amended: entering a section via its dispatch callable and
closing it with the builtin `end` restores the current scope and all three
stacks exactly, and ends in the `applyResult` fold of the closed scope's
assembled result into a runtime whose non-trace components are exactly the
pre-entry ones — a fold that updates the parent's `currentResult` and may
also append the folded value to the parent's `currentIndex` (the part the
original claim missed, exhibited in the counterexample). -/
theorem c10_amended (rt rt1 rt2 : RT) (scope f : Field) (name : String)
    (ns : Option String) (v u : JSVal)
    (hsc : rt.currentScope = some scope)
    (hf : assocGet scope.children name = some f)
    (hty : f.ftype = .sect)
    (hpar : f.attrs.hasParent = true)
    (h1 : propDispatch rt name ns v = .ok (rt1, u))
    (h2 : endBuiltin rt1 = .ok rt2) :
    rt2.currentScope = rt.currentScope ∧ rt2.scopeStack = rt.scopeStack
    ∧ rt2.resultStack = rt.resultStack ∧ rt2.indexStack = rt.indexStack
    ∧ ∃ (assembled : JSObj) (rtm : RT) (vr : JSVal),
        sameCore rtm rt ∧ applyResult rtm f (.obj assembled) = .ok (rt2, vr) := by
  unfold propDispatch at h1
  rw [hsc] at h1
  dsimp only at h1
  rw [hf] at h1
  dsimp only at h1
  simp only [hty] at h1
  simp at h1
  unfold sectionEnter at h1
  dsimp only at h1
  cases happ : applyProperty (pushRT rt f) f (fullnameOf ns name) v with
  | error e => rw [happ] at h1; exact absurd h1 (by simp)
  | ok rt2' =>
    rw [happ] at h1
    dsimp only at h1
    simp only [hty] at h1
    simp at h1
    obtain ⟨h1a, _⟩ := h1
    obtain ⟨e1, e2, e3, e4, e5, e6, e7, e8, e9⟩ := fireOnEnter_frame rt2' f
    obtain ⟨q1, q2, q3, q4, q5, q6, q7, q8⟩ := applyProperty_frame happ
    have hs1 : rt1.scopeStack = rt.currentScope :: rt.scopeStack := by
      rw [← h1a, e1, q1]; rfl
    have hs2 : rt1.currentScope = some f := by rw [← h1a, e2, q2]; rfl
    have hs3 : rt1.resultStack = rt.currentResult :: rt.resultStack := by
      rw [← h1a, e3, q3]; rfl
    have hs5 : rt1.indexStack = rt.currentIndex :: rt.indexStack := by
      rw [← h1a, e5, q4]; rfl
    have hstr : rt1.strict = rt.strict := by rw [← h1a, e7, q6]; rfl
    have hwd : rt1.workdir = rt.workdir := by rw [← h1a, e8, q7]; rfl
    have hhm : rt1.home = rt.home := by rw [← h1a, e9, q8]; rfl
    obtain ⟨tr, r, hpop⟩ := endBuiltin_ok_shape hs2 h2
    set rtx := { rt1 with trace := tr } with hrtx
    unfold popRT at hpop
    have hxc : rtx.currentScope = some f := by rw [hrtx]; exact hs2
    rw [hxc] at hpop
    cases hcr : rt1.currentResult with
    | none =>
      have hxr : rtx.currentResult = none := by rw [hrtx]; exact hcr
      rw [hxr] at hpop
      exact absurd hpop (by simp [endScope])
    | some cres =>
      have hxr : rtx.currentResult = some cres := by rw [hrtx]; exact hcr
      rw [hxr] at hpop
      obtain ⟨vr, happly⟩ := endScope_fold hpar hpop
      obtain ⟨a1, a2, a3, a4, a5, a6, a7, a8⟩ := applyResult_frame happly
      have r1 : (restoredOf rtx).scopeStack = rt.scopeStack := by
        rw [hrtx]; simp [restoredOf, hs1]
      have r2 : (restoredOf rtx).currentScope = rt.currentScope := by
        rw [hrtx]; simp [restoredOf, hs1, headO]
      have r3 : (restoredOf rtx).resultStack = rt.resultStack := by
        rw [hrtx]; simp [restoredOf, hs3]
      have r4 : (restoredOf rtx).currentResult = rt.currentResult := by
        rw [hrtx]; simp [restoredOf, hs3, headO]
      have r5 : (restoredOf rtx).indexStack = rt.indexStack := by
        rw [hrtx]; simp [restoredOf, hs5]
      have r6 : (restoredOf rtx).currentIndex = rt.currentIndex := by
        rw [hrtx]; simp [restoredOf, hs5, headO]
      refine ⟨?_, ?_, ?_, ?_, r, restoredOf rtx, vr, ?_, happly⟩
      · rw [a2, r2]
      · rw [a1, r1]
      · rw [a3, r3]
      · rw [a4, r5]
      · exact ⟨by rw [hrtx]; simp [restoredOf, hstr], by rw [hrtx]; simp [restoredOf, hwd],
          by rw [hrtx]; simp [restoredOf, hhm], r1, r2, r3, r4, r5, r6⟩

/-- The runtime state after entering `inner` from `c10rt0`. -/
def c10rt1 : RT :=
  pushRT c10rt0 innerF

/-- The runtime state after closing `inner` with the builtin `end`: the
empty result folds into `outer` and is appended to its index. -/
def c10rt2 : RT :=
  { c10rt0 with
    currentResult := some [("inner", JSVal.obj [])],
    currentIndex := some [JSVal.obj []] }

/-- Claim C10 amended, witness: the concrete enter/close of `inner`. -/
theorem c10_amended_witness :
    c10rt2.currentScope = c10rt0.currentScope
    ∧ c10rt2.scopeStack = c10rt0.scopeStack
    ∧ c10rt2.resultStack = c10rt0.resultStack
    ∧ c10rt2.indexStack = c10rt0.indexStack
    ∧ ∃ (assembled : JSObj) (rtm : RT) (vr : JSVal),
        sameCore rtm c10rt0
        ∧ applyResult rtm innerF (.obj assembled) = .ok (c10rt2, vr) :=
  c10_amended c10rt0 c10rt1 c10rt2 outerF innerF "inner" none .undef .undef
    rfl rfl rfl rfl rfl rfl

end Conf
